import Mathlib

/-!
Verification of the `LLFileSystem` asset file accessor
(`indra/llfilesystem/llfilesystem.cpp`).

The accessor maps a content identity (a 128-bit file id plus an asset-type
tag) to a byte store resolved through the disk cache manager, and exposes
POSIX-like stream operations against that store.  We embed the unit shallowly:

* a resolved path is the pair (file id, file type) — `metaDataToFilepath` of
  the disk cache manager is deterministic and injective on identities, so the
  pair itself serves as the path;
* the filesystem is a map from paths to optional byte lists (a present store
  is a regular file; its byte list is its content);
* a session (`LLFileSystem`) carries the bound identity, the cursor
  `mPosition`, the last-read counter `mBytesRead` and the fixed `mMode`.
  In the source `mPosition` is a signed 32-bit value, but every assignment
  to it is non-negative (0, `+= fread result`, `ftell`, or a clamped seek
  target), so `Nat` is a faithful carrier;
* C-library nondeterminism that the claims mention is injected as explicit
  parameters: `osWritten` is the byte count an `fwrite` call actually wrote
  (clamped to the requested count, as `fwrite` guarantees), and the
  OS-failure flags of `LLFile::remove` / `LLFile::rename` say whether the
  underlying delete/rename syscall failed.
-/

namespace LLFS

/-- A resolved byte-store path: the (file id, file type) identity pair. -/
abbrev Path := Nat × Nat

/-- The byte-store state: each path holds either a regular file's content
(a list of bytes) or nothing. -/
abbrev FS := Path → Option (List Nat)

/-- Point update of the filesystem map. -/
def fsSet (fs : FS) (p : Path) (v : Option (List Nat)) : FS :=
  fun q => if q = p then v else fs q

/-- The disk cache manager's `metaDataToFilepath`: deterministic and
injective on (id, type), so modelled as the identity pair itself. -/
def metaDataToFilepath (id ty : Nat) : Path := (id, ty)

/-- POSIX `ENOENT` error class (value 2 on the supported platforms). -/
def ENOENT : Int := 2

namespace LLFile

/-- Modelled from the spec: `LLFile::remove` (declared in llcommon, not under
src/) deletes the file at the path if present; a deletion failure is logged
as a warning unless its error class equals `suppress` (deleting an absent
file fails with `ENOENT`).  `osFail` injects an OS-level delete failure of
class `errno` on a present file.  Returns the new filesystem and the list of
warning error classes emitted. -/
def remove (fs : FS) (p : Path) (suppress : Int) (osFail : Bool) (errno : Int) :
    FS × List Int :=
  match fs p with
  | none => (fs, if ENOENT = suppress then [] else [ENOENT])
  | some _ =>
    if osFail then (fs, if errno = suppress then [] else [errno])
    else (fsSet fs p none, [])

/-- Modelled from the spec: `LLFile::rename` (declared in llcommon, not under
src/) renames the store at `oldp` to `newp` and returns 0 on success,
non-zero on failure (renaming an absent source fails; `osFail` injects an
OS-level failure). -/
def rename (fs : FS) (oldp newp : Path) (osFail : Bool) : FS × Int :=
  match fs oldp with
  | none => (fs, 1)
  | some c =>
    if osFail then (fs, 1)
    else (fsSet (fsSet fs oldp none) newp (some c), 0)

end LLFile

/-- The access-session state of `LLFileSystem` (constructor at
llfilesystem.cpp:44-73). -/
structure LLFileSystem where
  mFileID : Nat
  mFileType : Nat
  mPosition : Nat
  mBytesRead : Nat
  mMode : Nat
  deriving Repr, DecidableEq

namespace LLFileSystem

/-- `LLFileSystem::READ` open mode. -/
def READ : Nat := 1

/-- `LLFileSystem::WRITE` open mode (truncating). -/
def WRITE : Nat := 2

/-- `LLFileSystem::READ_WRITE` open mode (update in place, no truncation). -/
def READ_WRITE : Nat := 3

/-- `LLFileSystem::APPEND` open mode. -/
def APPEND : Nat := 6

/-- The constructor: mode stored verbatim, cursor and last-read counter 0.
(The READ-mode access-time touch only feeds the disk cache manager's
eviction bookkeeping, which is outside the modelled state.) -/
def construct (file_id file_type mode : Nat) : LLFileSystem :=
  { mFileID := file_id, mFileType := file_type, mPosition := 0,
    mBytesRead := 0, mMode := mode }

/-- `LLFileSystem::getExists` (llfilesystem.cpp:80-103): true iff `stat`
succeeds on the resolved path, it is a regular file, and its size is
strictly positive. -/
def getExists (fs : FS) (file_id file_type : Nat) : Bool :=
  let filename := metaDataToFilepath file_id file_type
  match fs filename with
  | some c => decide (0 < c.length)
  | none => false

/-- `LLFileSystem::getFileSize` (llfilesystem.cpp:149-173): the store's byte
length, or 0 when the path cannot be stat'ed. -/
def getFileSize (fs : FS) (file_id file_type : Nat) : Nat :=
  let filename := metaDataToFilepath file_id file_type
  match fs filename with
  | some c => c.length
  | none => 0

/-- `LLFileSystem::removeFile` (llfilesystem.cpp:106-117): resolves the path,
calls `LLFile::remove` with the caller's suppression class, and returns
`true` unconditionally. -/
def removeFile (fs : FS) (file_id file_type : Nat) (suppress_error : Int)
    (osFail : Bool) (errno : Int) : FS × List Int × Bool :=
  let filename := metaDataToFilepath file_id file_type
  let r := LLFile.remove fs filename suppress_error osFail errno
  (r.1, r.2, true)

/-- `LLFileSystem::renameFile` (llfilesystem.cpp:120-146): removes any store
at the destination identity with suppression class `ENOENT`, then calls
`LLFile::rename`; an OS-level rename failure is logged only, and the
function returns `TRUE` unconditionally. -/
def renameFile (fs : FS) (old_file_id old_file_type new_file_id new_file_type : Nat)
    (osRemoveFail : Bool) (removeErrno : Int) (osRenameFail : Bool) :
    FS × List Int × Bool :=
  let old_filename := metaDataToFilepath old_file_id old_file_type
  let new_filename := metaDataToFilepath new_file_id new_file_type
  let r1 := removeFile fs new_file_id new_file_type ENOENT osRemoveFail removeErrno
  let r2 := LLFile.rename r1.1 old_filename new_filename osRenameFail
  (r2.1, r1.2.1, true)

/-- `LLFileSystem::read` (llfilesystem.cpp:175-230): open the resolved store
read-only ("rb" succeeds iff the store is present), seek to `mPosition`
(an `fseek` to a non-negative offset on a readable file succeeds), `fread`
at most `bytes` bytes, advance the cursor by the count obtained, record it
in `mBytesRead`, and succeed iff that count is non-zero.  Returns the new
session, the success flag, and the bytes obtained. -/
def read (fs : FS) (s : LLFileSystem) (bytes : Nat) :
    LLFileSystem × Bool × List Nat :=
  let filename := metaDataToFilepath s.mFileID s.mFileType
  match fs filename with
  | none => (s, false, [])
  | some c =>
    let got := (c.drop s.mPosition).take bytes
    ({ s with mBytesRead := got.length, mPosition := s.mPosition + got.length },
     decide (got.length ≠ 0), got)

/-- `LLFileSystem::getLastBytesRead` (llfilesystem.cpp:232-236). -/
def getLastBytesRead (s : LLFileSystem) : Nat := s.mBytesRead

/-- Overwrite `d` into `c` starting at offset `p`, zero-filling any gap
between the end of `c` and `p` (the effect of `fwrite` after an `fseek`
past end of file on a "r+b" stream). -/
def writeAt (c : List Nat) (p : Nat) (d : List Nat) : List Nat :=
  c.take p ++ List.replicate (p - c.length) 0 ++ d ++ c.drop (p + d.length)

/-- `LLFileSystem::write` (llfilesystem.cpp:244-354).  `osWritten` is the
count the underlying `fwrite` reported (clamped to the requested count,
which `fwrite` guarantees); only that many buffer bytes land in the store.
APPEND opens "a+b" (creates if absent, writes at end, `ftell` lands at the
new end); READ_WRITE opens "r+b" if the store is present (seek to the
cursor, write in place) and falls back to a truncating "wb" create when it
is absent; every other mode opens "wb" (truncate).  In each branch
`mPosition` is set to `ftell` after the write and success is reported iff
the written count equals the requested count. -/
def write (fs : FS) (s : LLFileSystem) (buffer : List Nat) (osWritten : Nat) :
    FS × LLFileSystem × Bool :=
  let filename := metaDataToFilepath s.mFileID s.mFileType
  let bytes_written := min osWritten buffer.length
  if s.mMode = APPEND then
    let c := (fs filename).getD []
    (fsSet fs filename (some (c ++ buffer.take bytes_written)),
     { s with mPosition := c.length + bytes_written },
     decide (bytes_written = buffer.length))
  else if s.mMode = READ_WRITE then
    match fs filename with
    | some c =>
      (fsSet fs filename (some (writeAt c s.mPosition (buffer.take bytes_written))),
       { s with mPosition := s.mPosition + bytes_written },
       decide (bytes_written = buffer.length))
    | none =>
      (fsSet fs filename (some (buffer.take bytes_written)),
       { s with mPosition := bytes_written },
       decide (bytes_written = buffer.length))
  else
    (fsSet fs filename (some (buffer.take bytes_written)),
     { s with mPosition := bytes_written },
     decide (bytes_written = buffer.length))

/-- `LLFileSystem::seek` (llfilesystem.cpp:356-385): origin −1 means "base =
current cursor"; the target `base + offset` is clamped to the store size
(failure) when above it, to 0 (failure) when negative, and otherwise set
exactly (success). -/
def seek (fs : FS) (s : LLFileSystem) (offset : Int) (origin : Int) :
    LLFileSystem × Bool :=
  let origin2 : Int := if origin = -1 then (s.mPosition : Int) else origin
  let new_pos : Int := origin2 + offset
  let size : Nat := getFileSize fs s.mFileID s.mFileType
  if (size : Int) < new_pos then
    ({ s with mPosition := size }, false)
  else if new_pos < 0 then
    ({ s with mPosition := 0 }, false)
  else
    ({ s with mPosition := new_pos.toNat }, true)

/-- `LLFileSystem::tell` (llfilesystem.cpp:387-391). -/
def tell (s : LLFileSystem) : Nat := s.mPosition

/-- `LLFileSystem::getSize` (llfilesystem.cpp:393-397). -/
def getSize (fs : FS) (s : LLFileSystem) : Nat :=
  getFileSize fs s.mFileID s.mFileType

/-- `LLFileSystem::eof` (llfilesystem.cpp:238-242): cursor ≥ current size. -/
def eof (fs : FS) (s : LLFileSystem) : Bool :=
  decide (getSize fs s ≤ s.mPosition)

/-- `LLFileSystem::getMaxSize` (llfilesystem.cpp:399-404): `INT_MAX`. -/
def getMaxSize : Nat := 2147483647

/-- Instance-bound `LLFileSystem::rename` (llfilesystem.cpp:406-415): calls
`renameFile`, then rebinds `mFileID`/`mFileType` to the new identity and
returns `TRUE`, with no look at `renameFile`'s outcome. -/
def rename (fs : FS) (s : LLFileSystem) (new_id new_type : Nat)
    (osRemoveFail : Bool) (removeErrno : Int) (osRenameFail : Bool) :
    FS × LLFileSystem × Bool :=
  let r := renameFile fs s.mFileID s.mFileType new_id new_type
    osRemoveFail removeErrno osRenameFail
  (r.1, { s with mFileID := new_id, mFileType := new_type }, true)

/-- Instance-bound `LLFileSystem::remove` (llfilesystem.cpp:417-423): calls
`removeFile` with the default suppression class 0 and returns `TRUE`. -/
def remove (fs : FS) (s : LLFileSystem) (osFail : Bool) (errno : Int) :
    FS × List Int × Bool :=
  let r := removeFile fs s.mFileID s.mFileType 0 osFail errno
  (r.1, r.2.1, true)

end LLFileSystem

/-- One session operation, for stating whole-session invariants.  `opWrite`
carries the injected `fwrite` outcome; `opSeek` carries offset and origin. -/
inductive Op where
  | opRead (bytes : Nat)
  | opWrite (buffer : List Nat) (osWritten : Nat)
  | opSeek (offset origin : Int)
  | opTell
  | opEof
  deriving Repr, DecidableEq

/-- Run one operation, returning the updated filesystem and session. -/
def runOp (fs : FS) (s : LLFileSystem) (op : Op) : FS × LLFileSystem :=
  match op with
  | .opRead n => (fs, (LLFileSystem.read fs s n).1)
  | .opWrite b k =>
    let r := LLFileSystem.write fs s b k
    (r.1, r.2.1)
  | .opSeek off org => (fs, (LLFileSystem.seek fs s off org).1)
  | .opTell => (fs, s)
  | .opEof => (fs, s)

/-- Run a sequence of operations. -/
def runOps (fs : FS) (s : LLFileSystem) (ops : List Op) : FS × LLFileSystem :=
  match ops with
  | [] => (fs, s)
  | op :: rest =>
    let r := runOp fs s op
    runOps r.1 r.2 rest

/-- The cursor invariant: the session position never exceeds the current
size of the store the session is bound to. -/
def Inv (fs : FS) (s : LLFileSystem) : Prop :=
  s.mPosition ≤ LLFileSystem.getFileSize fs s.mFileID s.mFileType

theorem fsSet_same (fs : FS) (p : Path) (v : Option (List Nat)) :
    fsSet fs p v p = v := by
  simp [fsSet]

theorem writeAt_length (c : List Nat) (p : Nat) (d : List Nat) :
    (LLFileSystem.writeAt c p d).length = max c.length (p + d.length) := by
  simp [LLFileSystem.writeAt]
  omega

theorem inv_runOp (fs : FS) (s : LLFileSystem) (op : Op) (h : Inv fs s) :
    Inv (runOp fs s op).1 (runOp fs s op).2 := by
  cases op with
  | opRead n =>
    rcases hm : fs (metaDataToFilepath s.mFileID s.mFileType) with _ | c
    · simpa [runOp, LLFileSystem.read, hm] using h
    · have hlen : s.mPosition ≤ c.length := by
        simpa [Inv, LLFileSystem.getFileSize, hm] using h
      simp [runOp, LLFileSystem.read, hm, Inv, LLFileSystem.getFileSize]
      omega
  | opWrite b k =>
    by_cases hA : s.mMode = LLFileSystem.APPEND
    · simp [runOp, LLFileSystem.write, hA, Inv, LLFileSystem.getFileSize, fsSet_same]
    · by_cases hRW : s.mMode = LLFileSystem.READ_WRITE
      · rcases hm : fs (metaDataToFilepath s.mFileID s.mFileType) with _ | c
        · simp [runOp, LLFileSystem.write, hA, hRW, hm, Inv, LLFileSystem.getFileSize,
            fsSet_same, LLFileSystem.READ_WRITE, LLFileSystem.APPEND]
        · simp [runOp, LLFileSystem.write, hA, hRW, hm, Inv, LLFileSystem.getFileSize,
            fsSet_same, writeAt_length, LLFileSystem.READ_WRITE,
            LLFileSystem.APPEND]
      · simp [runOp, LLFileSystem.write, hA, hRW, Inv, LLFileSystem.getFileSize,
          fsSet_same]
  | opSeek off org =>
    simp only [Inv] at h
    simp [runOp, LLFileSystem.seek, Inv]
    split_ifs <;> simp <;> omega
  | opTell => exact h
  | opEof => exact h

theorem inv_runOps (fs : FS) (s : LLFileSystem) (ops : List Op) (h : Inv fs s) :
    Inv (runOps fs s ops).1 (runOps fs s ops).2 := by
  induction ops generalizing fs s with
  | nil => exact h
  | cons op rest ih =>
    exact ih _ _ (inv_runOp fs s op h)

/-! Concrete fixtures used by the witnesses below. -/

/-- The empty filesystem: no store at any path. -/
def fsNone : FS := fun _ => none

/-- A filesystem with the three-byte store `[10, 20, 30]` at identity (1, 2). -/
def fsAbc : FS := fsSet fsNone (1, 2) (some [10, 20, 30])

/-- A filesystem with a zero-length store at identity (5, 6). -/
def fsEmptyStore : FS := fsSet fsNone (5, 6) (some [])

/-- A READ-mode session bound to identity (1, 2), cursor 0. -/
def sRead : LLFileSystem := LLFileSystem.construct 1 2 LLFileSystem.READ

/-- A READ_WRITE-mode session bound to identity (1, 2), cursor 1. -/
def sRW : LLFileSystem :=
  { LLFileSystem.construct 1 2 LLFileSystem.READ_WRITE with mPosition := 1 }

/-- An APPEND-mode session bound to identity (1, 2), cursor 7 (the cursor is
deliberately past the store's end to exercise the advisory-seek rule). -/
def sApp : LLFileSystem :=
  { LLFileSystem.construct 1 2 LLFileSystem.APPEND with mPosition := 7 }

/-- C1: for every identity pair and every OS outcome, `removeFile` and
`renameFile` report success (`true`) — even when the underlying OS-level
delete or rename failed — and `renameFile`'s store effect is exactly:
first remove any store at the destination identity with suppression class
`ENOENT`, then `LLFile.rename` the old store's path to the new path. -/
theorem remove_rename_always_succeed :
    (∀ fs file_id file_type sup osFail errno,
      (LLFileSystem.removeFile fs file_id file_type sup osFail errno).2.2 = true) ∧
    (∀ fs oid oty nid nty rmFail rmErrno rnFail,
      (LLFileSystem.renameFile fs oid oty nid nty rmFail rmErrno rnFail).2.2 = true) ∧
    (∀ fs oid oty nid nty rmFail rmErrno rnFail,
      (LLFileSystem.renameFile fs oid oty nid nty rmFail rmErrno rnFail).1 =
        (LLFile.rename
          (LLFileSystem.removeFile fs nid nty ENOENT rmFail rmErrno).1
          (metaDataToFilepath oid oty) (metaDataToFilepath nid nty) rnFail).1) :=
  ⟨fun _ _ _ _ _ _ => rfl, fun _ _ _ _ _ _ _ _ => rfl,
   fun _ _ _ _ _ _ _ _ => rfl⟩

/-- C2: for every session (any identity, any mode) and every sequence of
operations — construction, read, write, seek, tell, eof — the cursor
satisfies `0 ≤ position ≤ current store size` after each operation.  The
bound holds with no exception at all, so in particular it also holds after
a rejected (failure-reporting) seek, the one case the claim exempts. -/
theorem position_invariant_all_ops (fs : FS) (file_id file_type mode : Nat)
    (ops : List Op) :
    0 ≤ ((runOps fs (LLFileSystem.construct file_id file_type mode) ops).2).mPosition ∧
    ((runOps fs (LLFileSystem.construct file_id file_type mode) ops).2).mPosition ≤
      LLFileSystem.getFileSize
        (runOps fs (LLFileSystem.construct file_id file_type mode) ops).1
        ((runOps fs (LLFileSystem.construct file_id file_type mode) ops).2).mFileID
        ((runOps fs (LLFileSystem.construct file_id file_type mode) ops).2).mFileType :=
  ⟨Nat.zero_le _, inv_runOps fs _ ops (Nat.zero_le _)⟩

/-- C3: on an openable store, `read` succeeds iff at least one byte was
obtained (an exact match with the requested count is not required); the
cursor advances by exactly the number of bytes obtained and `mBytesRead`
is set to that number. -/
theorem read_success_iff_bytes_obtained (fs : FS) (s : LLFileSystem)
    (bytes : Nat) (c : List Nat)
    (h : fs (metaDataToFilepath s.mFileID s.mFileType) = some c) :
    ((LLFileSystem.read fs s bytes).2.1 = true ↔
      (LLFileSystem.read fs s bytes).2.2.length ≠ 0) ∧
    (LLFileSystem.read fs s bytes).1.mPosition =
      s.mPosition + (LLFileSystem.read fs s bytes).2.2.length ∧
    (LLFileSystem.read fs s bytes).1.mBytesRead =
      (LLFileSystem.read fs s bytes).2.2.length := by
  simp [LLFileSystem.read, h]

/-- Witness for C3: a two-byte read on the three-byte store. -/
theorem read_success_iff_bytes_obtained_witness :
    ((LLFileSystem.read fsAbc sRead 2).2.1 = true ↔
      (LLFileSystem.read fsAbc sRead 2).2.2.length ≠ 0) ∧
    (LLFileSystem.read fsAbc sRead 2).1.mPosition =
      sRead.mPosition + (LLFileSystem.read fsAbc sRead 2).2.2.length ∧
    (LLFileSystem.read fsAbc sRead 2).1.mBytesRead =
      (LLFileSystem.read fsAbc sRead 2).2.2.length :=
  read_success_iff_bytes_obtained fsAbc sRead 2 [10, 20, 30] (by decide)

theorem write_success_eq (fs : FS) (s : LLFileSystem) (buffer : List Nat)
    (osWritten : Nat) :
    (LLFileSystem.write fs s buffer osWritten).2.2 =
      decide (min osWritten buffer.length = buffer.length) := by
  by_cases hA : s.mMode = LLFileSystem.APPEND
  · simp [LLFileSystem.write, hA]
  · by_cases hRW : s.mMode = LLFileSystem.READ_WRITE
    · rcases hm : fs (metaDataToFilepath s.mFileID s.mFileType) with _ | c <;>
        simp [LLFileSystem.write, hA, hRW, hm, LLFileSystem.READ_WRITE,
          LLFileSystem.APPEND]
    · simp [LLFileSystem.write, hA, hRW]

/-- C4: in every mode (APPEND, READ_WRITE, and the default truncating WRITE
branch alike), `write` succeeds iff the count the OS actually wrote equals
the requested count. -/
theorem write_success_iff_exact_count (fs : FS) (s : LLFileSystem)
    (buffer : List Nat) (osWritten : Nat) (h : osWritten ≤ buffer.length) :
    ((LLFileSystem.write fs s buffer osWritten).2.2 = true ↔
      osWritten = buffer.length) := by
  rw [write_success_eq]
  simp [Nat.min_eq_left h]

/-- Witness for C4: a short write of 1 of 2 bytes fails; a full write of
2 of 2 bytes succeeds. -/
theorem write_success_iff_exact_count_witness :
    ((LLFileSystem.write fsAbc sRW [7, 8] 1).2.2 = true ↔ 1 = [7, 8].length) ∧
    ((LLFileSystem.write fsAbc sRW [7, 8] 2).2.2 = true ↔ 2 = [7, 8].length) :=
  ⟨write_success_iff_exact_count fsAbc sRW [7, 8] 1 (by decide),
   write_success_iff_exact_count fsAbc sRW [7, 8] 2 (by decide)⟩

theorem seek_fst_shape (fs : FS) (s : LLFileSystem) (off org : Int) :
    (LLFileSystem.seek fs s off org).1 =
      { s with mPosition := (LLFileSystem.seek fs s off org).1.mPosition } := by
  simp only [LLFileSystem.seek]
  split_ifs <;> rfl

theorem write_append_position_irrelevant (fs : FS) (s : LLFileSystem)
    (buffer : List Nat) (k p : Nat) (hA : s.mMode = LLFileSystem.APPEND) :
    LLFileSystem.write fs { s with mPosition := p } buffer k =
      LLFileSystem.write fs s buffer k := by
  simp [LLFileSystem.write, hA]

/-- C5: in an APPEND-mode session, a full write of `B` onto prior content
`C` leaves the store equal to `C ++ B` and the cursor at the new
end-of-store offset, and the write's entire outcome is unchanged by any
seek performed beforehand (seek is advisory only in this mode). -/
theorem append_law (fs : FS) (s : LLFileSystem) (buffer : List Nat)
    (hA : s.mMode = LLFileSystem.APPEND) :
    ((LLFileSystem.write fs s buffer buffer.length).1
        (metaDataToFilepath s.mFileID s.mFileType) =
      some ((fs (metaDataToFilepath s.mFileID s.mFileType)).getD [] ++ buffer)) ∧
    ((LLFileSystem.write fs s buffer buffer.length).2.1.mPosition =
      ((fs (metaDataToFilepath s.mFileID s.mFileType)).getD [] ++ buffer).length) ∧
    (∀ off org k,
      LLFileSystem.write fs ((LLFileSystem.seek fs s off org).1) buffer k =
        LLFileSystem.write fs s buffer k) := by
  refine ⟨?_, ?_, fun off org k => ?_⟩
  · simp [LLFileSystem.write, hA, fsSet_same]
  · simp [LLFileSystem.write, hA]
  · rw [seek_fst_shape]
    exact write_append_position_irrelevant fs s buffer k _ hA

/-- Witness for C5: an append of two bytes onto the three-byte store by
the cursor-7 APPEND session, with and without a preceding seek. -/
theorem append_law_witness :
    ((LLFileSystem.write fsAbc sApp [7, 8] [7, 8].length).1
        (metaDataToFilepath sApp.mFileID sApp.mFileType) =
      some ((fsAbc (metaDataToFilepath sApp.mFileID sApp.mFileType)).getD []
        ++ [7, 8])) ∧
    ((LLFileSystem.write fsAbc sApp [7, 8] [7, 8].length).2.1.mPosition =
      ((fsAbc (metaDataToFilepath sApp.mFileID sApp.mFileType)).getD []
        ++ [7, 8]).length) ∧
    (LLFileSystem.write fsAbc ((LLFileSystem.seek fsAbc sApp 1 0).1) [7, 8] 2 =
      LLFileSystem.write fsAbc sApp [7, 8] 2) := by
  have h := append_law fsAbc sApp [7, 8] (by decide)
  exact ⟨h.1, h.2.1, h.2.2 1 0 2⟩

/-- C6: for `seek` with origin 0 (the absolute anchor) or −1 (the sentinel
meaning base = current cursor): a target above the current store size
clamps the cursor to the size and reports failure, a negative target
clamps the cursor to 0 and reports failure, and otherwise the cursor is
set exactly to the target and the call reports success. -/
theorem seek_clamp_spec (fs : FS) (s : LLFileSystem) (offset origin : Int)
    (horig : origin = 0 ∨ origin = -1) :
    (((LLFileSystem.getFileSize fs s.mFileID s.mFileType : Int) <
        (if origin = -1 then (s.mPosition : Int) else origin) + offset) →
      LLFileSystem.seek fs s offset origin =
        ({ s with
            mPosition := LLFileSystem.getFileSize fs s.mFileID s.mFileType },
         false)) ∧
    (((if origin = -1 then (s.mPosition : Int) else origin) + offset < 0) →
      LLFileSystem.seek fs s offset origin =
        ({ s with mPosition := 0 }, false)) ∧
    ((0 ≤ (if origin = -1 then (s.mPosition : Int) else origin) + offset) →
      ((if origin = -1 then (s.mPosition : Int) else origin) + offset ≤
        (LLFileSystem.getFileSize fs s.mFileID s.mFileType : Int)) →
      LLFileSystem.seek fs s offset origin =
        ({ s with
            mPosition :=
              ((if origin = -1 then (s.mPosition : Int) else origin)
                + offset).toNat },
         true)) := by
  refine ⟨fun h1 => ?_, fun h2 => ?_, fun h3 h4 => ?_⟩
  · simp only [LLFileSystem.seek]
    rw [if_pos h1]
  · simp only [LLFileSystem.seek]
    rw [if_neg (by omega), if_pos h2]
  · simp only [LLFileSystem.seek]
    rw [if_neg (by omega), if_neg (by omega)]

/-- Witness for C6: on the three-byte store, an absolute seek to 10 clamps
to the size and fails, to −4 clamps to 0 and fails, and to 2 succeeds. -/
theorem seek_clamp_spec_witness :
    (LLFileSystem.seek fsAbc sRead 10 0 =
      ({ sRead with
          mPosition := LLFileSystem.getFileSize fsAbc sRead.mFileID sRead.mFileType },
       false)) ∧
    (LLFileSystem.seek fsAbc sRead (-4) 0 =
      ({ sRead with mPosition := 0 }, false)) ∧
    (LLFileSystem.seek fsAbc sRead 2 0 =
      ({ sRead with mPosition := ((0 : Int) + 2).toNat }, true)) :=
  ⟨(seek_clamp_spec fsAbc sRead 10 0 (Or.inl rfl)).1 (by decide),
   (seek_clamp_spec fsAbc sRead (-4) 0 (Or.inl rfl)).2.1 (by decide),
   (seek_clamp_spec fsAbc sRead 2 0 (Or.inl rfl)).2.2 (by decide) (by decide)⟩

theorem writeAt_pre_length (c : List Nat) (p : Nat) :
    (c.take p ++ List.replicate (p - c.length) (0 : Nat)).length = p := by
  simp
  omega

theorem writeAt_assoc (c : List Nat) (p : Nat) (d : List Nat) :
    LLFileSystem.writeAt c p d =
      (c.take p ++ List.replicate (p - c.length) (0 : Nat)) ++
        (d ++ c.drop (p + d.length)) := by
  simp [LLFileSystem.writeAt]

theorem writeAt_getElem_inside (c : List Nat) (p : Nat) (d : List Nat) (i : Nat)
    (hi : i < d.length) :
    (LLFileSystem.writeAt c p d)[p + i]? = d[i]? := by
  rw [writeAt_assoc,
    List.getElem?_append_right (by rw [writeAt_pre_length]; omega),
    writeAt_pre_length, Nat.add_sub_cancel_left, List.getElem?_append_left hi]

theorem writeAt_getElem_left (cs : List Nat) (p : Nat) (d : List Nat) (i : Nat)
    (hip : i < p) (hic : i < cs.length) :
    (LLFileSystem.writeAt cs p d)[i]? = cs[i]? := by
  rw [writeAt_assoc,
    List.getElem?_append_left (by rw [writeAt_pre_length]; omega),
    List.getElem?_append_left (by simp; omega),
    List.getElem?_take_of_lt hip]

theorem writeAt_getElem_right (cs : List Nat) (p : Nat) (d : List Nat) (i : Nat)
    (hid : p + d.length ≤ i) (hic : i < cs.length) :
    (LLFileSystem.writeAt cs p d)[i]? = cs[i]? := by
  rw [writeAt_assoc, ← List.append_assoc,
    List.getElem?_append_right (by simp [writeAt_pre_length]; omega),
    List.getElem?_drop]
  congr 1
  simp [writeAt_pre_length]
  omega

/-- C7: a full READ_WRITE-mode write of `buffer` onto an existing store is
positioned at the session cursor, and every store byte outside the written
span `[cursor, cursor + buffer.length)` is unchanged; in particular the
store is never truncated by the write. -/
theorem readwrite_frame (fs : FS) (s : LLFileSystem) (buffer cs : List Nat)
    (hRW : s.mMode = LLFileSystem.READ_WRITE)
    (hc : fs (metaDataToFilepath s.mFileID s.mFileType) = some cs) :
    ∃ post,
      (LLFileSystem.write fs s buffer buffer.length).1
          (metaDataToFilepath s.mFileID s.mFileType) = some post ∧
      cs.length ≤ post.length ∧
      (∀ i, i < buffer.length → post[s.mPosition + i]? = buffer[i]?) ∧
      (∀ i, i < cs.length →
        (i < s.mPosition ∨ s.mPosition + buffer.length ≤ i) →
        post[i]? = cs[i]?) := by
  refine ⟨LLFileSystem.writeAt cs s.mPosition buffer, ?_, ?_, ?_, ?_⟩
  · simp [LLFileSystem.write, hRW, hc, fsSet_same, LLFileSystem.READ_WRITE,
      LLFileSystem.APPEND]
  · rw [writeAt_length]
    omega
  · exact fun i hi => writeAt_getElem_inside cs s.mPosition buffer i hi
  · rintro i hic (hlt | hge)
    · exact writeAt_getElem_left cs s.mPosition buffer i hlt hic
    · exact writeAt_getElem_right cs s.mPosition buffer i hge hic

/-- Witness for C7: a full two-byte READ_WRITE write at cursor 1 onto the
three-byte store preserves the bytes at offsets 0 and writes at 1 and 2. -/
theorem readwrite_frame_witness :
    ∃ post,
      (LLFileSystem.write fsAbc sRW [7, 8] [7, 8].length).1
          (metaDataToFilepath sRW.mFileID sRW.mFileType) = some post ∧
      ([10, 20, 30] : List Nat).length ≤ post.length ∧
      (∀ i, i < ([7, 8] : List Nat).length →
        post[sRW.mPosition + i]? = ([7, 8] : List Nat)[i]?) ∧
      (∀ i, i < ([10, 20, 30] : List Nat).length →
        (i < sRW.mPosition ∨ sRW.mPosition + ([7, 8] : List Nat).length ≤ i) →
        post[i]? = ([10, 20, 30] : List Nat)[i]?) :=
  readwrite_frame fsAbc sRW [7, 8] [10, 20, 30] (by decide) (by decide)

/-- C8: `getExists` is true iff the resolved path names a regular file of
strictly positive size; in particular a zero-length store reports
exists = false even though its size query returns 0 (and no error). -/
theorem exists_iff_positive_size (fs : FS) (file_id file_type : Nat) :
    (LLFileSystem.getExists fs file_id file_type = true ↔
      ∃ c, fs (metaDataToFilepath file_id file_type) = some c ∧ 0 < c.length) ∧
    (fs (metaDataToFilepath file_id file_type) = some [] →
      LLFileSystem.getExists fs file_id file_type = false ∧
      LLFileSystem.getFileSize fs file_id file_type = 0) := by
  constructor
  · rcases hm : fs (metaDataToFilepath file_id file_type) with _ | c <;>
      simp [LLFileSystem.getExists, hm]
  · intro h
    simp [LLFileSystem.getExists, LLFileSystem.getFileSize, h]

/-- Witness for C8: the zero-length store at identity (5, 6). -/
theorem exists_iff_positive_size_witness :
    LLFileSystem.getExists fsEmptyStore 5 6 = false ∧
    LLFileSystem.getFileSize fsEmptyStore 5 6 = 0 :=
  (exists_iff_positive_size fsEmptyStore 5 6).2 (by decide)

/-- C9: when the store cannot be opened at all (nothing at the resolved
path), `read` reports failure and leaves the session — in particular its
cursor — unchanged, and obtains no bytes. -/
theorem read_unopenable_fails_cursor_unchanged (fs : FS) (s : LLFileSystem)
    (bytes : Nat)
    (h : fs (metaDataToFilepath s.mFileID s.mFileType) = none) :
    LLFileSystem.read fs s bytes = (s, false, []) := by
  simp [LLFileSystem.read, h]

/-- Witness for C9: a read on the empty filesystem. -/
theorem read_unopenable_fails_cursor_unchanged_witness :
    LLFileSystem.read fsNone sRead 5 = (sRead, false, []) :=
  read_unopenable_fails_cursor_unchanged fsNone sRead 5 (by decide)

/-- C10: the instance-bound `rename` rebinds the session identity to the
new identity unconditionally — including when the underlying OS-level
rename of the byte store failed — reports success, and a subsequent size
query on the session targets the new identity's path. -/
theorem rename_rebinds_identity_unconditionally (fs : FS) (s : LLFileSystem)
    (new_id new_type : Nat) (rmFail : Bool) (rmErrno : Int) (rnFail : Bool) :
    ((LLFileSystem.rename fs s new_id new_type rmFail rmErrno rnFail).2.1.mFileID
        = new_id) ∧
    ((LLFileSystem.rename fs s new_id new_type rmFail rmErrno rnFail).2.1.mFileType
        = new_type) ∧
    ((LLFileSystem.rename fs s new_id new_type rmFail rmErrno rnFail).2.2
        = true) ∧
    (LLFileSystem.getSize
        (LLFileSystem.rename fs s new_id new_type rmFail rmErrno rnFail).1
        (LLFileSystem.rename fs s new_id new_type rmFail rmErrno rnFail).2.1 =
      LLFileSystem.getFileSize
        (LLFileSystem.rename fs s new_id new_type rmFail rmErrno rnFail).1
        new_id new_type) :=
  ⟨rfl, rfl, rfl, rfl⟩

end LLFS
